import Mathlib

/-!
Verification development for the Solana wallet monitor (src/main.py).

Shallow embedding conventions:
* Python floats are embedded as rationals `ℚ`; the constants 0.25, 3.0,
  0.08, 1.3, 0.95, 1.8, 1.2, 0.9, 0.0001 are written as exact rationals.
  All delay arithmetic in the source consists of multiplications by such
  constants together with `min`/`max` clamps, so the bounds reasoning is
  unaffected by binary rounding.
* Python truthiness on optional numbers (`if x:` where `x` is `None`,
  `0`, or a number) is embedded explicitly: `None` and `0` are falsy.
* Stateful methods become pure state-transformers; the wall-clock time
  read from the event loop becomes an explicit parameter.
-/

/-- Modes of `SmartRateLimiter.performance_mode`: 'normal', 'fast', 'careful'. -/
inductive Mode where
  | normal
  | fast
  | careful
deriving DecidableEq, Repr

/-- `BASE_DELAY = 0.25` (src/main.py line 57). -/
def BASE_DELAY : ℚ := 1/4

/-- `MAX_DELAY = 3.0` (line 58). -/
def MAX_DELAY : ℚ := 3

/-- `MIN_DELAY = 0.08` (line 59). -/
def MIN_DELAY : ℚ := 2/25

/-- `BACKOFF_MULTIPLIER = 1.3` (line 60). -/
def BACKOFF_MULTIPLIER : ℚ := 13/10

/-- `DELAY_REDUCTION_FACTOR = 0.95` (line 61). -/
def DELAY_REDUCTION_FACTOR : ℚ := 19/20

/-- `MAX_RPC_CALLS_PER_SECOND = 25` (line 65). -/
def MAX_RPC_CALLS_PER_SECOND : ℚ := 25

/-- `SUCCESS_THRESHOLD_FOR_SPEEDUP = 3` (line 69). -/
def SUCCESS_THRESHOLD_FOR_SPEEDUP : ℕ := 3

/-- `MIN_NOTIFICATION_AMOUNT = 0.0001` (line 72). -/
def MIN_NOTIFICATION_AMOUNT : ℚ := 1/10000

/-- State of `SmartRateLimiter` (src/main.py lines 561-571).  The
`asyncio.Lock` is omitted: each method body runs under the lock, so the
methods are embedded as atomic state-transformers. -/
structure SmartRateLimiter where
  current_delay : ℚ
  success_count : ℕ
  fail_count : ℕ
  consecutive_successes : ℕ
  last_error_time : Option ℚ
  last_429_time : Option ℚ
  performance_mode : Mode
  recent_requests : List ℚ
deriving Repr

/-- `SmartRateLimiter.__init__` (lines 562-571). -/
def SmartRateLimiter.init : SmartRateLimiter where
  current_delay := BASE_DELAY
  success_count := 0
  fail_count := 0
  consecutive_successes := 0
  last_error_time := none
  last_429_time := none
  performance_mode := .normal
  recent_requests := []

/-- Python truthiness of an optional rational: `None` and `0` are falsy. -/
def pyTruthyQ : Option ℚ → Bool
  | none => false
  | some x => decide (x ≠ 0)

/-- `SmartRateLimiter.acquire` (lines 573-598), with the event-loop time
`t` passed explicitly.  The `await asyncio.sleep` has no effect on the
limiter state and is dropped. -/
def SmartRateLimiter.acquire (t : ℚ) (s : SmartRateLimiter) : SmartRateLimiter :=
  let recent := (s.recent_requests.filter fun x => decide (t - x < 60)) ++ [t]
  let current_rate : ℚ := recent.length
  if current_rate > MAX_RPC_CALLS_PER_SECOND * (9/10) then
    { s with recent_requests := recent,
             current_delay := max s.current_delay (1/2),
             performance_mode := .careful }
  else if current_rate < MAX_RPC_CALLS_PER_SECOND * (7/10) then
    { s with recent_requests := recent, performance_mode := .fast }
  else
    { s with recent_requests := recent, performance_mode := .normal }

/-- `SmartRateLimiter.on_success` (lines 600-622). -/
def SmartRateLimiter.on_success (s : SmartRateLimiter) : SmartRateLimiter :=
  let s1 := { s with success_count := s.success_count + 1,
                     consecutive_successes := s.consecutive_successes + 1 }
  let reduction_threshold :=
    if s1.performance_mode = .fast then SUCCESS_THRESHOLD_FOR_SPEEDUP else 5
  if s1.consecutive_successes ≥ reduction_threshold then
    if s1.performance_mode = .fast then
      { s1 with current_delay := max MIN_DELAY (s1.current_delay * (9/10)),
                consecutive_successes := 0 }
    else
      { s1 with current_delay := max MIN_DELAY (s1.current_delay * DELAY_REDUCTION_FACTOR),
                consecutive_successes := 0 }
  else s1

/-- `SmartRateLimiter.on_rate_limit_error` (lines 624-644), with the
event-loop time `t` explicit.  NOTE (faithful to the source): the method
assigns `self.last_429_time = current_time` (line 631) BEFORE testing
`self.last_429_time and current_time - self.last_429_time < 30`
(line 636), so the test reads the just-written value: it compares
`t - t = 0 < 30`, which holds whenever `t` is truthy (nonzero). -/
def SmartRateLimiter.on_rate_limit_error (t : ℚ) (s : SmartRateLimiter) : SmartRateLimiter :=
  let s1 := { s with fail_count := s.fail_count + 1,
                     consecutive_successes := 0,
                     last_error_time := some t,
                     last_429_time := some t }
  if pyTruthyQ s1.last_429_time ∧ t - (s1.last_429_time.getD 0) < 30 then
    { s1 with current_delay := min MAX_DELAY (s1.current_delay * (18/10)),
              performance_mode := .careful }
  else
    { s1 with current_delay := min MAX_DELAY (s1.current_delay * BACKOFF_MULTIPLIER) }

/-- `SmartRateLimiter.on_network_error` (lines 646-656). -/
def SmartRateLimiter.on_network_error (s : SmartRateLimiter) : SmartRateLimiter :=
  { s with fail_count := s.fail_count + 1,
           consecutive_successes := 0,
           current_delay := min MAX_DELAY (s.current_delay * (12/10)) }

/-- States of the rate controller reachable from the initial state by any
sequence of the four state-mutating operations, at arbitrary times. -/
inductive SmartRateLimiter.Reachable : SmartRateLimiter → Prop where
  | init : Reachable SmartRateLimiter.init
  | acquire (t : ℚ) {s : SmartRateLimiter} :
      Reachable s → Reachable (s.acquire t)
  | success {s : SmartRateLimiter} :
      Reachable s → Reachable s.on_success
  | rateLimit (t : ℚ) {s : SmartRateLimiter} :
      Reachable s → Reachable (s.on_rate_limit_error t)
  | network {s : SmartRateLimiter} :
      Reachable s → Reachable s.on_network_error

section RateLimiterProofs

/-- `current_delay` lies in the advertised interval. -/
def delayInv (d : ℚ) : Prop := MIN_DELAY ≤ d ∧ d ≤ MAX_DELAY

/-- Clamping an upward-scaled delay (`min(MAX_DELAY, d * k)`, `k ≥ 1`)
keeps the invariant. -/
lemma delayInv_clamp_up {d k : ℚ} (hk : 1 ≤ k) (h : delayInv d) :
    delayInv (min MAX_DELAY (d * k)) := by
  obtain ⟨h1, h2⟩ := h
  have hd0 : (0:ℚ) ≤ d := le_trans (by norm_num [MIN_DELAY]) h1
  refine ⟨le_min (by norm_num [MIN_DELAY, MAX_DELAY]) ?_, min_le_left _ _⟩
  nlinarith

/-- Clamping a downward-scaled delay (`max(MIN_DELAY, d * k)`, `0 ≤ k ≤ 1`)
keeps the invariant. -/
lemma delayInv_clamp_down {d k : ℚ} (_hk0 : 0 ≤ k) (hk1 : k ≤ 1) (h : delayInv d) :
    delayInv (max MIN_DELAY (d * k)) := by
  obtain ⟨h1, h2⟩ := h
  have hd0 : (0:ℚ) ≤ d := le_trans (by norm_num [MIN_DELAY]) h1
  refine ⟨le_max_left _ _, max_le (by norm_num [MIN_DELAY, MAX_DELAY]) ?_⟩
  nlinarith

lemma delay_bounds_acquire (t : ℚ) (s : SmartRateLimiter)
    (h : delayInv s.current_delay) : delayInv (s.acquire t).current_delay := by
  obtain ⟨h1, h2⟩ := h
  unfold SmartRateLimiter.acquire
  dsimp only
  split
  · exact ⟨le_trans h1 (le_max_left _ _), max_le h2 (by norm_num [MAX_DELAY])⟩
  · split <;> exact ⟨h1, h2⟩

lemma delay_bounds_on_success (s : SmartRateLimiter)
    (h : delayInv s.current_delay) : delayInv s.on_success.current_delay := by
  unfold SmartRateLimiter.on_success
  dsimp only
  obtain ⟨h1, h2⟩ := h
  have hd0 : (0:ℚ) ≤ s.current_delay := le_trans (by norm_num [MIN_DELAY]) h1
  by_cases hf : s.performance_mode = Mode.fast
  · by_cases hc : s.consecutive_successes + 1 ≥ SUCCESS_THRESHOLD_FOR_SPEEDUP
    · simp only [hf, ite_true, hc, if_pos]
      refine ⟨le_max_left _ _, max_le (by norm_num [MIN_DELAY, MAX_DELAY]) ?_⟩
      nlinarith
    · simp only [hf, ite_true, hc, if_neg]
      exact ⟨h1, h2⟩
  · by_cases hc : s.consecutive_successes + 1 ≥ 5
    · simp only [hf, ite_false, hc, if_pos]
      refine ⟨le_max_left _ _, max_le (by norm_num [MIN_DELAY, MAX_DELAY]) ?_⟩
      norm_num [DELAY_REDUCTION_FACTOR, MAX_DELAY] at h2 ⊢
      nlinarith [h2]
    · simp only [hf, ite_false, hc, if_neg]
      exact ⟨h1, h2⟩

lemma delay_bounds_on_rate_limit (t : ℚ) (s : SmartRateLimiter)
    (h : delayInv s.current_delay) :
    delayInv (s.on_rate_limit_error t).current_delay := by
  unfold SmartRateLimiter.on_rate_limit_error
  dsimp only
  split
  · exact delayInv_clamp_up (by norm_num) h
  · exact delayInv_clamp_up (by norm_num [BACKOFF_MULTIPLIER]) h

lemma delay_bounds_on_network (s : SmartRateLimiter)
    (h : delayInv s.current_delay) : delayInv s.on_network_error.current_delay := by
  unfold SmartRateLimiter.on_network_error
  exact delayInv_clamp_up (by norm_num) h

end RateLimiterProofs

/-- C9: the rate controller's `current_delay` always lies in
`[MIN_DELAY, MAX_DELAY] = [0.08 s, 3 s]`: it starts at `BASE_DELAY = 0.25 s`
and every state-mutating operation (`acquire`, `on_success`,
`on_rate_limit_error`, `on_network_error`) preserves both bounds, so every
reachable state satisfies them. -/
theorem c9_current_delay_bounded (s : SmartRateLimiter) (h : s.Reachable) :
    MIN_DELAY ≤ s.current_delay ∧ s.current_delay ≤ MAX_DELAY := by
  induction h with
  | init => constructor <;> norm_num [SmartRateLimiter.init, MIN_DELAY, MAX_DELAY, BASE_DELAY]
  | acquire t _ ih => exact delay_bounds_acquire t _ ih
  | success _ ih => exact delay_bounds_on_success _ ih
  | rateLimit t _ ih => exact delay_bounds_on_rate_limit t _ ih
  | network _ ih => exact delay_bounds_on_network _ ih

/-- Witness for C9 at the initial state. -/
theorem c9_current_delay_bounded_witness :
    MIN_DELAY ≤ SmartRateLimiter.init.current_delay ∧
      SmartRateLimiter.init.current_delay ≤ MAX_DELAY :=
  c9_current_delay_bounded SmartRateLimiter.init SmartRateLimiter.Reachable.init

/-- C1 (code bug): evaluation of `on_rate_limit_error` at a state that has
NEVER seen a 429 (`last_429_time = None`, delay `0.25`, mode `normal`),
reported at time 100.  The claim (and the source's own comments, lines
637/641) call for the moderate branch here: delay `0.25 × 1.3 = 0.325`,
mode unchanged.  Because line 631 overwrites `last_429_time` before the
line-636 test, the code instead takes the aggressive branch: delay
`min(3, 0.25 × 1.8) = 0.45` and mode forced to `careful`. -/
theorem c1_dead_branch_at_failing_input :
    (SmartRateLimiter.init.on_rate_limit_error 100).current_delay = 9/20 ∧
      (SmartRateLimiter.init.on_rate_limit_error 100).performance_mode = .careful ∧
      ¬((SmartRateLimiter.init.on_rate_limit_error 100).current_delay = BASE_DELAY * BACKOFF_MULTIPLIER ∧
        (SmartRateLimiter.init.on_rate_limit_error 100).performance_mode = .normal) := by
  refine ⟨?_, ?_, ?_⟩ <;>
    norm_num [SmartRateLimiter.on_rate_limit_error, SmartRateLimiter.init, pyTruthyQ,
      MAX_DELAY, BASE_DELAY, BACKOFF_MULTIPLIER, min_def]

/-!
## Watch registry (DatabaseManager over `monitored_wallets`)

A registry state is the list of rows of the `monitored_wallets` table
(src/main.py lines 167-180).  Columns not consulted by the claims
(`id`, `private_key_encrypted`, `nickname`, timestamps) are omitted;
`last_signature` and `monitoring_start_time` are carried because they are
the per-account cursor and inception time.
-/

/-- A row of `monitored_wallets`. -/
structure WalletRow where
  chat_id : Int
  wallet_address : String
  is_active : Bool
  last_signature : Option String
  monitoring_start_time : Option Int
deriving DecidableEq, Repr

/-- The `monitored_wallets` table. -/
abbrev Registry := List WalletRow

/-- `DatabaseManager.get_monitored_wallets` (lines 266-289): active rows of
one subscriber. -/
def get_monitored_wallets (reg : Registry) (chat : Int) : List WalletRow :=
  reg.filter fun r => decide (r.chat_id = chat) && r.is_active

/-- `DatabaseManager.add_monitored_wallet` (lines 236-250): plain INSERT of
a fresh active row with the current time as `monitoring_start_time`. -/
def add_monitored_wallet (chat : Int) (wa : String) (startTime : Int)
    (reg : Registry) : Registry :=
  reg ++ [⟨chat, wa, true, none, some startTime⟩]

/-- Result of `SolanaMonitor.add_wallet`. -/
inductive AddWalletResult where
  | added
  | duplicate
deriving DecidableEq, Repr

/-- `SolanaMonitor.add_wallet` (lines 787-816), restricted to its effect on
the registry: report `duplicate` when the caller already has an active
watch on the account, otherwise insert.  Key validation and DB failures
leave the registry unchanged and are omitted. -/
def add_wallet (chat : Int) (wa : String) (startTime : Int)
    (reg : Registry) : Registry × AddWalletResult :=
  if (get_monitored_wallets reg chat).any fun r => r.wallet_address == wa then
    (reg, .duplicate)
  else
    (add_monitored_wallet chat wa startTime reg, .added)

/-- `DatabaseManager.remove_monitored_wallet` (lines 252-264): UPDATE
setting `is_active = FALSE` on the caller's active rows for the account. -/
def remove_monitored_wallet (chat : Int) (wa : String) (reg : Registry) : Registry :=
  reg.map fun r =>
    if r.chat_id = chat ∧ r.wallet_address = wa ∧ r.is_active = true then
      { r with is_active := false }
    else r

/-- `DatabaseManager.transfer_all_wallets` (lines 433-482): UPDATE setting
`chat_id = target` on every active row. -/
def transfer_all_wallets (target : Int) (reg : Registry) : Registry :=
  reg.map fun r => if r.is_active = true then { r with chat_id := target } else r

/-- The §3 invariant: for a given (subscriber, account) pair at most one
active watch exists — no two distinct rows are both active with the same
`(chat_id, wallet_address)`. -/
def uniqueActiveWatch (reg : Registry) : Prop :=
  reg.Pairwise fun a b =>
    ¬(a.is_active = true ∧ b.is_active = true ∧
      a.chat_id = b.chat_id ∧ a.wallet_address = b.wallet_address)

/-- C4 counterexample: two subscribers (1 and 2) each add an active watch
on the same account "walletX" — a registry state the invariant allows and
`add_wallet` itself produces — and then `transfer_all_wallets 3` reassigns
both rows to subscriber 3, leaving two active watches for the single pair
(3, "walletX"): the invariant is not preserved. -/
theorem c4_transfer_breaks_invariant :
    uniqueActiveWatch ((add_wallet 2 "walletX" 60 ((add_wallet 1 "walletX" 50 []).1)).1) ∧
      ¬uniqueActiveWatch
        (transfer_all_wallets 3
          ((add_wallet 2 "walletX" 60 ((add_wallet 1 "walletX" 50 []).1)).1)) := by
  constructor
  · unfold uniqueActiveWatch
    decide
  · unfold uniqueActiveWatch
    decide

lemma mem_get_monitored_wallets {reg : Registry} {chat : Int} {r : WalletRow} :
    r ∈ get_monitored_wallets reg chat ↔ r ∈ reg ∧ r.chat_id = chat ∧ r.is_active = true := by
  simp [get_monitored_wallets, List.mem_filter, and_assoc]

lemma add_wallet_duplicate_iff (reg : Registry) (chat : Int) (wa : String) (st : Int) :
    (add_wallet chat wa st reg).2 = .duplicate ↔
      ∃ r ∈ reg, r.is_active = true ∧ r.chat_id = chat ∧ r.wallet_address = wa := by
  unfold add_wallet
  split
  · next h =>
    simp only [List.any_eq_true, beq_iff_eq] at h
    obtain ⟨r, hr, hwa⟩ := h
    rw [mem_get_monitored_wallets] at hr
    simp only [true_iff]
    exact ⟨r, hr.1, hr.2.2, hr.2.1, hwa⟩
  · next h =>
    simp only [List.any_eq_true, beq_iff_eq] at h
    constructor
    · intro hcontra
      cases hcontra
    · rintro ⟨r, hr, hact, hchat, hwa⟩
      exact absurd ⟨r, mem_get_monitored_wallets.mpr ⟨hr, hchat, hact⟩, hwa⟩ h

lemma add_wallet_preserves_uniqueActiveWatch (reg : Registry) (chat : Int)
    (wa : String) (st : Int) (h : uniqueActiveWatch reg) :
    uniqueActiveWatch (add_wallet chat wa st reg).1 := by
  unfold add_wallet
  split
  · exact h
  · next hnot =>
    simp only [List.any_eq_true, beq_iff_eq] at hnot
    unfold add_monitored_wallet uniqueActiveWatch
    rw [List.pairwise_append]
    refine ⟨h, List.pairwise_singleton _ _, ?_⟩
    intro a ha b hb
    simp only [List.mem_singleton] at hb
    subst hb
    rintro ⟨haact, -, hchat, hwa⟩
    exact hnot ⟨a, mem_get_monitored_wallets.mpr ⟨ha, hchat, haact⟩, hwa⟩

lemma remove_preserves_uniqueActiveWatch (reg : Registry) (chat : Int)
    (wa : String) (h : uniqueActiveWatch reg) :
    uniqueActiveWatch (remove_monitored_wallet chat wa reg) := by
  unfold remove_monitored_wallet uniqueActiveWatch
  refine List.Pairwise.map _ ?_ h
  intro a b hab hcontra
  apply hab
  constructor
  · by_cases hc : a.chat_id = chat ∧ a.wallet_address = wa ∧ a.is_active = true
    · rw [if_pos hc] at hcontra
      exact absurd hcontra.1 (by simp)
    · rw [if_neg hc] at hcontra
      exact hcontra.1
  constructor
  · by_cases hc : b.chat_id = chat ∧ b.wallet_address = wa ∧ b.is_active = true
    · rw [if_pos hc] at hcontra
      exact absurd hcontra.2.1 (by simp)
    · rw [if_neg hc] at hcontra
      exact hcontra.2.1
  · have ha : (if a.chat_id = chat ∧ a.wallet_address = wa ∧ a.is_active = true then
        { a with is_active := false } else a) = a := by
      by_cases hc : a.chat_id = chat ∧ a.wallet_address = wa ∧ a.is_active = true
      · rw [if_pos hc] at hcontra
        exact absurd hcontra.1 (by simp)
      · rw [if_neg hc]
    have hb : (if b.chat_id = chat ∧ b.wallet_address = wa ∧ b.is_active = true then
        { b with is_active := false } else b) = b := by
      by_cases hc : b.chat_id = chat ∧ b.wallet_address = wa ∧ b.is_active = true
      · rw [if_pos hc] at hcontra
        exact absurd hcontra.2.1 (by simp)
      · rw [if_neg hc]
    rw [ha, hb] at hcontra
    exact ⟨hcontra.2.2.1, hcontra.2.2.2⟩

lemma transfer_reassigns_all (reg : Registry) (target : Int) :
    ∀ r ∈ transfer_all_wallets target reg, r.is_active = true → r.chat_id = target := by
  intro r hr hact
  unfold transfer_all_wallets at hr
  rw [List.mem_map] at hr
  obtain ⟨a, -, rfl⟩ := hr
  by_cases hc : a.is_active = true
  · rw [if_pos hc]
  · rw [if_neg hc] at hact ⊢
    exact absurd hact hc

/-- C4 amended: `add_wallet` reports `duplicate` exactly when the caller
already has an active watch on the account, and `add_wallet` and
`remove_monitored_wallet` both preserve the at-most-one-active-watch
invariant; `transfer_all_wallets` reassigns every active watch to the
single target subscriber — but (per the counterexample) it does NOT
preserve the invariant. -/
theorem c4_registry_operations :
    (∀ (reg : Registry) (chat : Int) (wa : String) (st : Int),
        uniqueActiveWatch reg → uniqueActiveWatch (add_wallet chat wa st reg).1) ∧
    (∀ (reg : Registry) (chat : Int) (wa : String) (st : Int),
        (add_wallet chat wa st reg).2 = .duplicate ↔
          ∃ r ∈ reg, r.is_active = true ∧ r.chat_id = chat ∧ r.wallet_address = wa) ∧
    (∀ (reg : Registry) (chat : Int) (wa : String),
        uniqueActiveWatch reg → uniqueActiveWatch (remove_monitored_wallet chat wa reg)) ∧
    (∀ (reg : Registry) (target : Int),
        ∀ r ∈ transfer_all_wallets target reg, r.is_active = true → r.chat_id = target) :=
  ⟨fun reg chat wa st => add_wallet_preserves_uniqueActiveWatch reg chat wa st,
   fun reg chat wa st => add_wallet_duplicate_iff reg chat wa st,
   fun reg chat wa => remove_preserves_uniqueActiveWatch reg chat wa,
   fun reg target => transfer_reassigns_all reg target⟩

/-- Witness for C4 at concrete inputs: subscriber 1 adds "walletA" to the
registry that already holds their active watch on "walletA" (duplicate
reported, state kept), and the invariant holds after adding to the empty
registry. -/
theorem c4_registry_operations_witness :
    uniqueActiveWatch (add_wallet 1 "walletA" 50 []).1 ∧
      (add_wallet 1 "walletA" 60 (add_wallet 1 "walletA" 50 []).1).2 = .duplicate :=
  ⟨c4_registry_operations.1 [] 1 "walletA" 50 (by unfold uniqueActiveWatch; decide),
   (c4_registry_operations.2.1 (add_wallet 1 "walletA" 50 []).1 1 "walletA" 60).mpr
     ⟨⟨1, "walletA", true, none, some 50⟩, by decide, rfl, rfl, rfl⟩⟩

/-!
## Per-account poll check (`SolanaMonitor.check_transactions_optimized`)

The RPC reply is the newest-first signature list; the wallet row supplies
the cursor (`last_signature`) and inception time (`monitoring_start_time`).
The check's externally visible effect is a sequence of operations: at most
one cursor advance (`update_last_signature`) and the spawning of
per-signature processing tasks in chronological order.  We embed the
method as the list of these operations, in the order the source performs
them.
-/

/-- One entry of the `getSignaturesForAddress` result. -/
structure SigInfo where
  signature : String
  blockTime : Option Int
deriving DecidableEq, Repr

/-- Python truthiness of an optional integer: `None` and `0` are falsy. -/
def pyTruthyI : Option Int → Bool
  | none => false
  | some x => decide (x ≠ 0)

/-- The inception-time discard test (lines 1069-1071 and again 1083-1085):
`if monitoring_start_time and tx_time and tx_time < monitoring_start_time:
continue`.  Both values must be truthy (present and nonzero) for the
comparison to apply. -/
def txTimeFilter (mst : Option Int) (bt : Option Int) : Bool :=
  pyTruthyI mst && pyTruthyI bt && decide (bt.getD 0 < mst.getD 0)

/-- The `new_transactions` collection loop (lines 1062-1073): walk the
newest-first list, stopping (exclusive) at the cursor, discarding entries
that fail the inception-time test. -/
def collectNew : List SigInfo → String → Option Int → List SigInfo
  | [], _, _ => []
  | s :: rest, cursor, mst =>
    if s.signature = cursor then []
    else if txTimeFilter mst s.blockTime then collectNew rest cursor mst
    else s :: collectNew rest cursor mst

/-- Observable operations of one per-account check. -/
inductive CheckOp where
  | updateCursor (sig : String)
  | emit (s : SigInfo)
deriving DecidableEq, Repr

/-- `SolanaMonitor.check_transactions_optimized` (lines 1026-1100) as the
ordered list of its cursor writes and per-signature task spawns.
`signatures` is the RPC result (empty list ⇒ falsy ⇒ early return);
`last_signature`/`mst` come from the account's wallet row (a `None` or
empty-string cursor is falsy in `if not last_signature` — embedded as
`none`).  In the new-transactions branch the source advances the cursor to
`new_transactions[0]` first (line 1077), then spawns processing for the
collected entries in reversed (chronological) order, re-applying the
inception-time test (lines 1081-1091). -/
def check_transactions_optimized : List SigInfo → Option String → Option Int → List CheckOp
  | [], _, _ => []
  | _s0 :: _rest, none, _mst => [.updateCursor _s0.signature]
  | s0 :: rest, some cursor, mst =>
    match collectNew (s0 :: rest) cursor mst with
    | [] => []
    | t0 :: ts =>
      .updateCursor t0.signature ::
        (((t0 :: ts).reverse.filter fun s => !txTimeFilter mst s.blockTime).map .emit)

/-- C5: on the first ever poll (null cursor) with a non-empty result list,
the check writes the newest signature `S[0]` as the cursor and emits no
events — no notification is produced for historical activity. -/
theorem c5_first_poll_seeds_cursor_only (s0 : SigInfo) (rest : List SigInfo)
    (mst : Option Int) :
    check_transactions_optimized (s0 :: rest) none mst = [.updateCursor s0.signature] :=
  rfl

/-- C2 counterexample: cursor is "s1", the only newer signature "s2" has
`blockTime 5` earlier than the inception time 10, so the collection loop
discards it and `new_transactions` is empty: the check performs NO
operation at all — in particular the cursor is not advanced to
`S[0] = "s2"` as the claim requires. -/
theorem c2_filtered_head_no_cursor_advance :
    check_transactions_optimized
        [⟨"s2", some 5⟩, ⟨"s1", some 1⟩] (some "s1") (some 10) = [] ∧
      (⟨"s2", some 5⟩ : SigInfo) = ([⟨"s2", some 5⟩, ⟨"s1", some 1⟩] : List SigInfo).head (by simp) := by
  constructor
  · rfl
  · rfl

lemma collectNew_cons_keep {s0 : SigInfo} {rest : List SigInfo} {c : String}
    {mst : Option Int} (hne : s0.signature ≠ c)
    (hfl : txTimeFilter mst s0.blockTime = false) :
    collectNew (s0 :: rest) c mst = s0 :: collectNew rest c mst := by
  rw [collectNew, if_neg hne, hfl]
  simp

/-- C2 amended: on a poll with cursor `c`, the check performs at most one
cursor advance and that advance precedes every emission; its target is the
head of the collected new-transaction list — which equals `S[0]` whenever
`S[0]` is itself new and passes the inception-time test.  When every
signature newer than the cursor is discarded, the check performs no
operation (the cursor is NOT advanced). -/
theorem c2_cursor_advance_amended (sigs : List SigInfo) (c : String) (mst : Option Int) :
    (collectNew sigs c mst = [] → check_transactions_optimized sigs (some c) mst = []) ∧
    (∀ t0 ts, collectNew sigs c mst = t0 :: ts →
      ∃ es, check_transactions_optimized sigs (some c) mst = .updateCursor t0.signature :: es ∧
        ∀ op ∈ es, ∃ s, op = .emit s) ∧
    (∀ s0 rest, sigs = s0 :: rest → s0.signature ≠ c →
      txTimeFilter mst s0.blockTime = false →
      ∃ es, check_transactions_optimized sigs (some c) mst =
        .updateCursor s0.signature :: es) := by
  refine ⟨?_, ?_, ?_⟩
  · intro hcol
    cases sigs with
    | nil => rfl
    | cons s0 rest =>
      rw [check_transactions_optimized, hcol]
  · intro t0 ts hcol
    cases sigs with
    | nil => simp [collectNew] at hcol
    | cons s0 rest =>
      rw [check_transactions_optimized, hcol]
      exact ⟨_, rfl, by
        intro op hop
        rw [List.mem_map] at hop
        obtain ⟨s, -, rfl⟩ := hop
        exact ⟨s, rfl⟩⟩
  · rintro s0 rest rfl hne hfl
    have hcol := @collectNew_cons_keep s0 rest c mst hne hfl
    exact ⟨(((s0 :: collectNew rest c mst).reverse.filter
        fun s => !txTimeFilter mst s.blockTime).map .emit),
      by rw [check_transactions_optimized, hcol]⟩

/-- Witness for C2 amended at a concrete poll: `S = [s4 (blockTime 20),
s1]`, cursor "s1", inception 10 — the new signature s4 survives, the check
advances the cursor to s4 first and then emits. -/
theorem c2_cursor_advance_amended_witness :
    ∃ es, check_transactions_optimized
        [⟨"s4", some 20⟩, ⟨"s1", some 1⟩] (some "s1") (some 10) =
      .updateCursor "s4" :: es :=
  match (c2_cursor_advance_amended [⟨"s4", some 20⟩, ⟨"s1", some 1⟩] "s1"
      (some 10)).2.2 ⟨"s4", some 20⟩ [⟨"s1", some 1⟩] rfl
      (by decide) (by decide) with
  | ⟨es, h⟩ => ⟨es, h⟩

/-!
## Amount formatting (`format_sol_amount`) and Python float parsing

`format_sol_amount` (src/main.py lines 514-517) computes
`f"{lamports / 1e9:.9f}"`: sign, integer part, '.', and exactly nine
fractional digits.  The embedding renders the exact rational
`lamports / 10^9`; Python renders the nearest binary double, which can
differ in the low digits for astronomically large inputs but always has
the same shape (optional '-', digits, '.', nine digits), and shape is the
only thing the claims below consume.

`pyFloatParse` embeds the acceptance behaviour of Python's `float()` on
such strings: it accepts an optional sign followed by decimal digits with
an optional fractional part.  This is a sub-grammar of what `float()`
accepts (Python additionally allows exponents, `inf`/`nan`, underscores
and surrounding whitespace), so acceptance here implies acceptance by
Python.
-/

/-- Decimal digits of `n`, least significant first, with explicit fuel
(`fuel ≥ n` suffices since a number has no more digits than its value;
`natDigitsRev` always supplies `fuel = n`). -/
def natDigitsRevFuel : ℕ → ℕ → List ℕ
  | 0, _ => []
  | fuel + 1, n => if n = 0 then [] else n % 10 :: natDigitsRevFuel fuel (n / 10)

/-- Decimal digits of `n`, least significant first (`[]` for 0). -/
def natDigitsRev (n : ℕ) : List ℕ := natDigitsRevFuel n n

/-- The character for a decimal digit. -/
def digitChar (d : ℕ) : Char := Char.ofNat (48 + d)

/-- Decimal digit characters of a natural number, most significant
first. -/
def charsOfNat (n : ℕ) : List Char :=
  if n = 0 then ['0'] else (natDigitsRev n).reverse.map digitChar

/-- Decimal rendering of a natural number. -/
def natToDecString (n : ℕ) : String := String.mk (charsOfNat n)

/-- `format_sol_amount` (lines 514-517): `f"{lamports / 1e9:.9f}"` —
optional sign, integer part, '.', and the fractional part zero-padded to
exactly nine digits. -/
def format_sol_amount (lamports : Int) : String :=
  String.mk ((if lamports < 0 then ['-'] else []) ++
    charsOfNat (lamports.natAbs / 1000000000) ++ '.' ::
      (List.replicate (9 - (charsOfNat (lamports.natAbs % 1000000000)).length) '0' ++
        charsOfNat (lamports.natAbs % 1000000000)))

/-- Numeric value of a digit string (most significant first). -/
def digitsToNat (l : List Char) : ℕ :=
  l.foldl (fun acc c => acc * 10 + (c.toNat - 48)) 0

/-- Acceptance behaviour of Python `float()` restricted to plain decimal
literals: optional sign, digits, optional '.' and fractional digits, at
least one digit overall. -/
def pySignSplit : List Char → ℚ × List Char
  | '-' :: r => (-1, r)
  | '+' :: r => (1, r)
  | r => (1, r)

def pyFloatParse (s : String) : Option ℚ :=
  match (pySignSplit s.data).2.dropWhile Char.isDigit with
  | [] =>
    if ((pySignSplit s.data).2.takeWhile Char.isDigit).isEmpty then none
    else some ((pySignSplit s.data).1 *
      (digitsToNat ((pySignSplit s.data).2.takeWhile Char.isDigit) : ℚ))
  | '.' :: fr =>
    if fr.all Char.isDigit &&
        !(((pySignSplit s.data).2.takeWhile Char.isDigit).isEmpty && fr.isEmpty) then
      some ((pySignSplit s.data).1 *
        ((digitsToNat ((pySignSplit s.data).2.takeWhile Char.isDigit) : ℚ) +
          (digitsToNat fr : ℚ) / ((10:ℚ) ^ fr.length)))
    else none
  | _ => none

/-!
## Transaction classifier (`SolanaMonitor.calculate_balance_change`)

Token-balance entries are opaque to the classifier — only the length of
the `preTokenBalances` / `postTokenBalances` lists is consulted — so they
are embedded as `Unit` values.
-/

/-- One instruction of the transaction message; only `programId` is read. -/
structure Instruction where
  programId : String
deriving DecidableEq, Repr

/-- The fields of a `getTransaction` result consulted by the classifier
and the per-signature processor. -/
structure TxData where
  preBalances : List Int
  postBalances : List Int
  preTokenBalances : List Unit
  postTokenBalances : List Unit
  accountKeys : List String
  instructions : List Instruction
  blockTime : Option Int
deriving DecidableEq, Repr

/-- The curated DEX/AMM program list (src/main.py lines 1283-1302). -/
def trading_programs : List String :=
  ["675kPX9MHTjS2zt1qfr1NYHuzeLXfQM9H24wFSUt1Mp8",
   "9W959DqEETiGZocYWCQPaJ6sBmUzgfxXfqGeTEdp3aQP",
   "JUP4Fb2cqiRUcaTHdrPC8h2gNsA2ETXiPDD33WcGuJB",
   "JUP6LkbZbjS1jKKwapdHNy74zcZ3tLUZoi5QNyVTaV4",
   "whirLbMiicVdio4qvUfM5KAg6Ct8VwpYzGff3uctyCc",
   "CAMMCzo5YL8w4VFF8KVHrK22GGUsp5VTaW7grrKgrWqK",
   "PhoeNiXZ8ByJGLkxNfZRnkUfjvmuYqLR89jjFHGqdXY",
   "MarBmsSgKXdrN1egZf5sqe1TMai9K1rChYNDJgjq7aD",
   "5Q544fKrFoe6tsEbD7S8EmxGTJYAKtTVhAW5Q5pge4j1",
   "DjVE6JNiYqPL2QXyCUUh8rNjHrbz9hXHNYt99MQ59qw1",
   "SSwpkEEcbUqx4vtoEByFjSkhKdCT862DNVb52nZg1UZ",
   "AMM55ShdkoGRB5jVYPjWzTURSGdQnQ8LbtE4jktMTG8P",
   "EhYXEhg6JT5p2ZnhbRSFzKHigPuKFZuL9EGo7ZtDC5VY",
   "srmqPvymJeFKQ4zGQed1GFppgkRHL9kaELCbyksJtPX",
   "22Y43yTVxuUkoRKdm9thyRhQ3SdgQS7c7kB6UNCiaczD",
   "LBUZKhRxPF3XUpBCjp4YzTKgLccjZhTSDM9YuVaPwxo",
   "EewxydAPCCVuNEyrVN68PuSYdQ7wKn27V9Gjeoi8dy3S",
   "RaydiumCLMM"]

/-- The SPL Token program id (line 1310). -/
def TOKEN_PROGRAM : String := "TokenkegQfeZyiNwAJbNbGKPFXCWuBvf9Ss623VQ5DA"

/-- `"🔄 تداول"` — the `trade` kind string. -/
def TRADE_TYPE : String := "🔄 تداول"

/-- `"📥 استلام"` — the `receive` kind string. -/
def RECEIVE_TYPE : String := "📥 استلام"

/-- `"📤 إرسال"` — the `send` kind string. -/
def SEND_TYPE : String := "📤 إرسال"

/-- `"📋 معاملة عامة"` — the `generic` kind string (zero delta). -/
def GENERIC_TYPE : String := "📋 معاملة عامة"

/-- `"معاملة عامة"` — the fallback kind string (wallet not found in
`accountKeys`, missing balances, or exception). -/
def GENERIC_FALLBACK : String := "معاملة عامة"

/-- `SolanaMonitor.calculate_balance_change` (lines 1252-1330).  Faithful
to the source, the token-swap heuristic at line 1312 evaluates
`meta.get('preTokenBalances', []) or meta.get('postTokenBalances', [])`:
Python's `or` yields the pre-side list whenever it is non-empty and only
otherwise consults the post side. -/
def calculate_balance_change (transaction : TxData) (wallet_address : String) :
    String × String :=
  match transaction.accountKeys.findIdx? (fun k => k == wallet_address) with
  | none => ("0", GENERIC_FALLBACK)
  | some wallet_index =>
    if wallet_index < transaction.preBalances.length ∧
        wallet_index < transaction.postBalances.length then
      let pre_balance := transaction.preBalances.getD wallet_index 0
      let post_balance := transaction.postBalances.getD wallet_index 0
      let change := post_balance - pre_balance
      let amount := format_sol_amount change
      if transaction.instructions.any fun ins => trading_programs.contains ins.programId then
        (amount, TRADE_TYPE)
      else
        let token_transfers :=
          if transaction.preTokenBalances = [] then transaction.postTokenBalances
          else transaction.preTokenBalances
        if (transaction.instructions.any fun ins => ins.programId == TOKEN_PROGRAM) &&
            decide (1 < token_transfers.length) then
          (amount, TRADE_TYPE)
        else if change > 0 then (amount, RECEIVE_TYPE)
        else if change < 0 then (amount, SEND_TYPE)
        else (amount, GENERIC_TYPE)
    else ("0", GENERIC_FALLBACK)

/-- C7 counterexample transaction: no DEX instruction, one SPL-Token
instruction, ONE pre-side token-balance entry but THREE post-side entries,
and zero lamport delta for the watched account "W". -/
def c7tx : TxData :=
  { preBalances := [10], postBalances := [10],
    preTokenBalances := [()],
    postTokenBalances := [(), (), ()],
    accountKeys := ["W"],
    instructions := [⟨TOKEN_PROGRAM⟩],
    blockTime := none }

/-- C7 counterexample: `c7tx` carries no DEX-program instruction, has an
SPL-Token instruction and ≥ 2 token-balance entries on the POST side, yet
the classifier does not return `trade`: Python's
`preTokenBalances or postTokenBalances` short-circuits on the non-empty
pre side (one entry), so the post side is never consulted. -/
theorem c7_post_side_not_consulted :
    ((c7tx.instructions.any fun ins => trading_programs.contains ins.programId) = false) ∧
      ((c7tx.instructions.any fun ins => ins.programId == TOKEN_PROGRAM) = true) ∧
      2 ≤ c7tx.postTokenBalances.length ∧
      (calculate_balance_change c7tx "W").2 ≠ TRADE_TYPE := by
  refine ⟨by decide, by decide, by decide, by decide⟩

/-- C7 amended: for a transaction whose watched account is found and whose
balances cover its index, carrying no curated-DEX instruction: if some
instruction is the SPL-Token program and the CONSULTED token-balance list
— the pre side when it is non-empty, otherwise the post side — has at
least 2 entries, the classifier returns `trade`, regardless of the sign of
the lamport delta. -/
theorem c7_token_swap_heuristic (tx : TxData) (wa : String) (i : ℕ)
    (hidx : tx.accountKeys.findIdx? (fun k => k == wa) = some i)
    (hpre : i < tx.preBalances.length) (hpost : i < tx.postBalances.length)
    (hnodex : ∀ ins ∈ tx.instructions, trading_programs.contains ins.programId = false)
    (htoken : ∃ ins ∈ tx.instructions, ins.programId = TOKEN_PROGRAM)
    (hcount : 1 < (if tx.preTokenBalances = [] then tx.postTokenBalances
        else tx.preTokenBalances).length) :
    (calculate_balance_change tx wa).2 = TRADE_TYPE := by
  have h1 : (tx.instructions.any fun ins => trading_programs.contains ins.programId) = false := by
    rw [List.any_eq_false]
    intro ins hins
    show ¬trading_programs.contains ins.programId = true
    rw [hnodex ins hins]
    simp
  have h2 : (tx.instructions.any fun ins => ins.programId == TOKEN_PROGRAM) = true := by
    rw [List.any_eq_true]
    obtain ⟨ins, hins, hpid⟩ := htoken
    exact ⟨ins, hins, by simp [hpid]⟩
  unfold calculate_balance_change
  rw [hidx]
  dsimp only
  rw [if_pos ⟨hpre, hpost⟩, h1]
  simp only [Bool.false_eq_true, if_false]
  have hcond : ((tx.instructions.any fun ins => ins.programId == TOKEN_PROGRAM) &&
      decide (1 < (if tx.preTokenBalances = [] then tx.postTokenBalances
        else tx.preTokenBalances).length)) = true := by
    rw [h2]
    simpa using hcount
  rw [hcond]
  simp

/-- Witness for C7 amended: a transaction with two pre-side token-balance
entries, an SPL-Token instruction and no DEX instruction classifies as
`trade`. -/
theorem c7_token_swap_heuristic_witness :
    (calculate_balance_change
        { preBalances := [5], postBalances := [9],
          preTokenBalances := [(), ()], postTokenBalances := [],
          accountKeys := ["W2"],
          instructions := [⟨TOKEN_PROGRAM⟩],
          blockTime := none } "W2").2 = TRADE_TYPE :=
  c7_token_swap_heuristic _ "W2" 0 (by decide) (by decide) (by decide)
    (by decide) ⟨⟨TOKEN_PROGRAM⟩, by decide, rfl⟩ (by decide)

/-!
## Notified-signature ledger (`transaction_history`) and per-signature
processing (`SolanaMonitor.process_single_transaction`)

The `transaction_history` table (src/main.py lines 183-197) has a UNIQUE
constraint on `signature`; `add_transaction_record` (lines 373-389) is
`INSERT ... ON CONFLICT (signature) DO NOTHING` and reports whether a row
was inserted.  Every insert in the program sets `notified = TRUE`.
-/

/-- A row of `transaction_history` (columns the claims consult). -/
structure TxRecord where
  wallet_address : String
  chat_id : Int
  signature : String
  amount : String
  tx_type : String
  block_time : Int
  notified : Bool
deriving DecidableEq, Repr

/-- The `transaction_history` table. -/
abbrev Ledger := List TxRecord

/-- Whether a row with this signature exists (the UNIQUE-constraint
test). -/
def hasSig (l : Ledger) (sig : String) : Bool :=
  l.any fun r => r.signature == sig

/-- `DatabaseManager.add_transaction_record` (lines 373-389):
insert-if-absent on the signature column; `true` iff a new row landed. -/
def add_transaction_record (l : Ledger) (r : TxRecord) : Ledger × Bool :=
  if hasSig l r.signature then (l, false) else (l ++ [r], true)

/-- `DatabaseManager.is_transaction_already_notified` (lines 391-402). -/
def is_transaction_already_notified (l : Ledger) (sig : String) : Bool :=
  l.any fun r => r.signature == sig && r.notified

/-- `"🌫️ معاملة غبار (تم تجاهلها)"` — the dust row type (line 1160). -/
def DUST_TYPE : String := "🌫️ معاملة غبار (تم تجاهلها)"

/-- The dust branch's per-subscriber insert loop (lines 1154-1162): one
`add_transaction_record` attempt per subscriber, results ignored — the
UNIQUE constraint makes every attempt after the first a no-op. -/
def dustStoreLoop (wa sig amount : String) (bt : Int) :
    List WalletRow → Ledger → Ledger
  | [], l => l
  | w :: ws, l =>
    dustStoreLoop wa sig amount bt ws
      (add_transaction_record l ⟨wa, w.chat_id, sig, amount, DUST_TYPE, bt, true⟩).1

/-- The notification-path store loop (lines 1176-1193): the source breaks
out of the loop after a successful insert and `return`s (without
notifying) after a failed one, so only the FIRST subscriber's insert is
ever attempted; the returned flag is `transaction_stored`, which gates the
notification callback (line 1196). -/
def mainStore (wa sig amount txType : String) (bt : Int) :
    List WalletRow → Ledger → Ledger × Bool
  | [], l => (l, false)
  | w :: _, l =>
    let r := add_transaction_record l ⟨wa, w.chat_id, sig, amount, txType, bt, true⟩
    if r.2 then (r.1, true) else (r.1, false)

/-- `SolanaMonitor.process_single_transaction` (lines 1102-1227) as a
transformer of the durable ledger, returning the new ledger and whether
the notification callback fired.

`alreadyObs` is the value the run observed from
`is_transaction_already_notified` (line 1108) — under concurrent cycles
this read may be stale, so it is an arbitrary input rather than being
recomputed from `l`; the insert against the current ledger is the only
synchronised step, exactly as in the source.  `wallets` is the
`get_monitored_wallets_by_address` result (empty ⇒ early return, line
1114); `txResult` the `getTransaction` payload (missing ⇒ early return,
line 1130).  The dust test (lines 1144-1163) compares
`abs(float(amount))` with the threshold and, on a `ValueError`/`TypeError`
from the conversion, falls through to the store-and-notify path (lines
1171-1173). -/
def processSingleTransaction (alreadyObs : Bool) (wallets : List WalletRow)
    (txResult : Option TxData) (wa sig : String) (l : Ledger) : Ledger × Bool :=
  if alreadyObs then (l, false)
  else if wallets = [] then (l, false)
  else
    match txResult with
    | none => (l, false)
    | some tx =>
      let ac := calculate_balance_change tx wa
      let bt := tx.blockTime.getD 0
      match pyFloatParse ac.1 with
      | some a =>
        if |a| < MIN_NOTIFICATION_AMOUNT then
          (dustStoreLoop wa sig ac.1 bt wallets l, false)
        else mainStore wa sig ac.1 ac.2 bt wallets l
      | none => mainStore wa sig ac.1 ac.2 bt wallets l

lemma hasSig_append_single {l : Ledger} {r : TxRecord} {s : String} :
    hasSig (l ++ [r]) s = (hasSig l s || (r.signature == s)) := by
  simp [hasSig, List.any_append]

lemma hasSig_add_mono {l : Ledger} {r : TxRecord} {s : String}
    (h : hasSig l s = true) : hasSig (add_transaction_record l r).1 s = true := by
  unfold add_transaction_record
  split
  · exact h
  · simp [hasSig_append_single, h]

lemma hasSig_dustStoreLoop_mono {wa sig amount : String} {bt : Int}
    (ws : List WalletRow) (l : Ledger) {s : String} (h : hasSig l s = true) :
    hasSig (dustStoreLoop wa sig amount bt ws l) s = true := by
  induction ws generalizing l with
  | nil => exact h
  | cons w ws ih => exact ih _ (hasSig_add_mono h)

lemma hasSig_mainStore_mono {wa sig amount txType : String} {bt : Int}
    (ws : List WalletRow) (l : Ledger) {s : String} (h : hasSig l s = true) :
    hasSig (mainStore wa sig amount txType bt ws l).1 s = true := by
  cases ws with
  | nil => exact h
  | cons w ws =>
    unfold mainStore
    dsimp only
    split <;> exact hasSig_add_mono h

lemma hasSig_process_mono {obs : Bool} {wallets : List WalletRow}
    {txResult : Option TxData} {wa sig s : String} {l : Ledger}
    (h : hasSig l s = true) :
    hasSig (processSingleTransaction obs wallets txResult wa sig l).1 s = true := by
  unfold processSingleTransaction
  split
  · exact h
  split
  · exact h
  split
  · exact h
  next tx =>
    dsimp only
    split
    · split
      · exact hasSig_dustStoreLoop_mono _ _ h
      · exact hasSig_mainStore_mono _ _ h
    · exact hasSig_mainStore_mono _ _ h

lemma mainStore_notified {wa sig amount txType : String} {bt : Int}
    {ws : List WalletRow} {l : Ledger}
    (h : (mainStore wa sig amount txType bt ws l).2 = true) :
    hasSig l sig = false ∧ hasSig (mainStore wa sig amount txType bt ws l).1 sig = true := by
  cases ws with
  | nil => simp [mainStore] at h
  | cons w ws =>
    unfold mainStore at h ⊢
    dsimp only at h ⊢
    by_cases hc : hasSig l sig = true
    · rw [show (add_transaction_record l
          ⟨wa, w.chat_id, sig, amount, txType, bt, true⟩).2 = false by
        unfold add_transaction_record; rw [if_pos hc]] at h
      simp at h
    · have hfalse : hasSig l sig = false := by
        cases hh : hasSig l sig
        · rfl
        · exact absurd hh hc
      refine ⟨hfalse, ?_⟩
      rw [show add_transaction_record l ⟨wa, w.chat_id, sig, amount, txType, bt, true⟩ =
          (l ++ [⟨wa, w.chat_id, sig, amount, txType, bt, true⟩], true) by
        unfold add_transaction_record; rw [if_neg hc]]
      simp [hasSig_append_single]

lemma process_notified {obs : Bool} {wallets : List WalletRow}
    {txResult : Option TxData} {wa sig : String} {l : Ledger}
    (h : (processSingleTransaction obs wallets txResult wa sig l).2 = true) :
    hasSig l sig = false ∧
      hasSig (processSingleTransaction obs wallets txResult wa sig l).1 sig = true := by
  cases obs with
  | true => simp [processSingleTransaction] at h
  | false =>
    by_cases hw : wallets = []
    · simp [processSingleTransaction, hw] at h
    · cases txResult with
      | none => simp [processSingleTransaction, hw] at h
      | some tx =>
        simp only [processSingleTransaction, Bool.false_eq_true, if_false, hw,
          if_neg, ite_false] at h ⊢
        cases hp : pyFloatParse (calculate_balance_change tx wa).1 with
        | some a =>
          rw [hp] at h
          dsimp only at h
          by_cases hd : |a| < MIN_NOTIFICATION_AMOUNT
          · rw [if_pos hd] at h
            simp at h
          · rw [if_neg hd] at h
            dsimp only
            rw [if_neg hd]
            exact mainStore_notified h
        | none =>
          rw [hp] at h
          dsimp only
          exact mainStore_notified h

/-- One interleaved per-signature processing run: the observed
duplicate-check bit, the subscriber rows, the fetched transaction, and the
account/signature being processed. -/
structure RunInput where
  alreadyObs : Bool
  wallets : List WalletRow
  txResult : Option TxData
  wa : String
  sig : String

/-- Number of notification callbacks fired for signature `s` by a sequence
of processing runs threaded through the shared durable ledger. -/
def notifCount (s : String) : Ledger → List RunInput → ℕ
  | _, [] => 0
  | l, r :: rs =>
    let res := processSingleTransaction r.alreadyObs r.wallets r.txResult r.wa r.sig l
    (if res.2 && (r.sig == s) then 1 else 0) + notifCount s res.1 rs

lemma notifCount_zero_of_hasSig {s : String} (l : Ledger) (runs : List RunInput)
    (h : hasSig l s = true) : notifCount s l runs = 0 := by
  induction runs generalizing l with
  | nil => rfl
  | cons r rs ih =>
    unfold notifCount
    dsimp only
    rw [ih _ (hasSig_process_mono h)]
    by_cases hs : r.sig = s
    · subst hs
      by_cases hn : (processSingleTransaction r.alreadyObs r.wallets r.txResult r.wa r.sig l).2 = true
      · exact absurd h (by rw [(process_notified hn).1]; simp)
      · simp [Bool.eq_false_iff.mpr hn]
    · simp [hs]

/-- C3: across any sequence of per-signature processing runs sharing the
durable ledger — any subscribers, any polling cycles, any restarts, and
arbitrarily stale duplicate-check reads — at most one notification is ever
dispatched for a given signature, and none at all if the ledger already
records it; the insert-if-absent on the unique signature column is the
crossing point. -/
theorem c3_at_most_one_notification (l : Ledger) (runs : List RunInput) (s : String) :
    notifCount s l runs ≤ 1 ∧ (hasSig l s = true → notifCount s l runs = 0) := by
  refine ⟨?_, notifCount_zero_of_hasSig l runs⟩
  induction runs generalizing l with
  | nil => simp [notifCount]
  | cons r rs ih =>
    unfold notifCount
    dsimp only
    by_cases hn : ((processSingleTransaction r.alreadyObs r.wallets r.txResult r.wa r.sig l).2
        && (r.sig == s)) = true
    · rw [hn]
      have hsig : r.sig = s := by
        have := (Bool.and_eq_true _ _).mp hn
        simpa using this.2
      have hnot : (processSingleTransaction r.alreadyObs r.wallets r.txResult r.wa r.sig l).2 = true :=
        ((Bool.and_eq_true _ _).mp hn).1
      have hafter := (process_notified hnot).2
      have h0 : notifCount s
          (processSingleTransaction r.alreadyObs r.wallets r.txResult r.wa r.sig l).1 rs = 0 :=
        notifCount_zero_of_hasSig _ rs (by rw [hsig]; rw [hsig] at hafter; exact hafter)
      rw [h0]
      simp
    · rw [Bool.eq_false_iff.mpr hn]
      simpa using ih _

/-- Witness for C3 at a concrete state: with the signature "sigA" already
in the ledger, a run list never notifies it. -/
theorem c3_at_most_one_notification_witness :
    notifCount "sigA" [⟨"W", 7, "sigA", "0", "x", 0, true⟩]
        [⟨false, [⟨7, "W", true, none, none⟩], none, "W", "sigA"⟩] = 0 :=
  (c3_at_most_one_notification [⟨"W", 7, "sigA", "0", "x", 0, true⟩]
      [⟨false, [⟨7, "W", true, none, none⟩], none, "W", "sigA"⟩] "sigA").2 (by decide)

lemma dustStoreLoop_of_hasSig {wa sig amount : String} {bt : Int}
    (ws : List WalletRow) (l : Ledger) (h : hasSig l sig = true) :
    dustStoreLoop wa sig amount bt ws l = l := by
  induction ws with
  | nil => rfl
  | cons w ws ih =>
    unfold dustStoreLoop
    rw [show add_transaction_record l ⟨wa, w.chat_id, sig, amount, DUST_TYPE, bt, true⟩ =
        (l, false) by unfold add_transaction_record; rw [if_pos h]]
    exact ih

lemma dustStoreLoop_fresh {wa sig amount : String} {bt : Int}
    (w : WalletRow) (ws : List WalletRow) (l : Ledger) (h : hasSig l sig = false) :
    dustStoreLoop wa sig amount bt (w :: ws) l =
      l ++ [⟨wa, w.chat_id, sig, amount, DUST_TYPE, bt, true⟩] := by
  unfold dustStoreLoop
  rw [show add_transaction_record l ⟨wa, w.chat_id, sig, amount, DUST_TYPE, bt, true⟩ =
      (l ++ [⟨wa, w.chat_id, sig, amount, DUST_TYPE, bt, true⟩], true) by
    unfold add_transaction_record
    rw [if_neg (by rw [h]; simp)]]
  exact dustStoreLoop_of_hasSig ws _ (by rw [hasSig_append_single, h]; simp)

lemma hasSig_eq_any (l : Ledger) (sig : String) :
    hasSig l sig = l.any fun r => r.signature == sig := rfl

lemma countP_sig_eq_zero {l : Ledger} {sig : String} (h : hasSig l sig = false) :
    (l.countP fun r => r.signature == sig) = 0 := by
  rw [hasSig_eq_any] at h
  rw [List.countP_eq_zero]
  exact List.any_eq_false.mp h

/-- C6: processing a dust transaction (parsed |amount| strictly below the
threshold) on a fresh signature leaves EXACTLY ONE ledger row for the
signature — marked as dust — regardless of how many subscribers watch the
account, and fires no notification: the per-subscriber loop's later
inserts all hit the unique-signature conflict and do nothing. -/
theorem c6_dust_one_row_no_notification
    (w : WalletRow) (ws : List WalletRow) (tx : TxData) (wa sig : String)
    (l : Ledger) (a : ℚ)
    (hparse : pyFloatParse (calculate_balance_change tx wa).1 = some a)
    (hdust : |a| < MIN_NOTIFICATION_AMOUNT)
    (hfresh : hasSig l sig = false) :
    ((processSingleTransaction false (w :: ws) (some tx) wa sig l).1.countP
        fun r => r.signature == sig) = 1 ∧
      (processSingleTransaction false (w :: ws) (some tx) wa sig l).2 = false ∧
      ∀ r ∈ (processSingleTransaction false (w :: ws) (some tx) wa sig l).1,
        r.signature = sig → r.tx_type = DUST_TYPE := by
  have hproc : processSingleTransaction false (w :: ws) (some tx) wa sig l =
      (l ++ [⟨wa, w.chat_id, sig, (calculate_balance_change tx wa).1, DUST_TYPE,
        tx.blockTime.getD 0, true⟩], false) := by
    simp only [processSingleTransaction, Bool.false_eq_true, if_false,
      List.cons_ne_self, if_neg, reduceCtorEq, ite_false]
    rw [hparse]
    dsimp only
    rw [if_pos hdust, dustStoreLoop_fresh w ws l hfresh]
  rw [hproc]
  refine ⟨?_, rfl, ?_⟩
  · rw [List.countP_append, countP_sig_eq_zero hfresh]
    simp
  · intro r hr hrsig
    rcases List.mem_append.mp hr with hl | hone
    · have hfresh2 := hfresh
      rw [hasSig_eq_any] at hfresh2
      exact absurd (by rw [hrsig]; simp : (r.signature == sig) = true)
        (List.any_eq_false.mp hfresh2 r hl)
    · rw [List.mem_singleton.mp hone]

/-- Witness for C6: account "W" with one subscriber, a transaction whose
lamport delta is 50 000 (0.00005 SOL < 0.0001 SOL threshold), an empty
ledger: exactly one dust row, no notification. -/
theorem c6_dust_one_row_no_notification_witness :
    ((processSingleTransaction false [⟨7, "W", true, none, none⟩]
        (some { preBalances := [100000], postBalances := [150000],
                preTokenBalances := [], postTokenBalances := [],
                accountKeys := ["W"], instructions := [], blockTime := some 17 })
        "W" "sigDust" []).1.countP fun r => r.signature == "sigDust") = 1 :=
  (c6_dust_one_row_no_notification ⟨7, "W", true, none, none⟩ []
    { preBalances := [100000], postBalances := [150000],
      preTokenBalances := [], postTokenBalances := [],
      accountKeys := ["W"], instructions := [], blockTime := some 17 }
    "W" "sigDust" []
    ((1:ℚ) * ((((0:ℕ)):ℚ) + (((50000:ℕ)):ℚ) / ((10:ℚ) ^ (9:ℕ)))) rfl
    (by rw [abs_of_pos (by norm_num)]; norm_num [MIN_NOTIFICATION_AMOUNT]) rfl).1

lemma natDigitsRevFuel_lt_ten :
    ∀ (fuel n d : ℕ), d ∈ natDigitsRevFuel fuel n → d < 10 := by
  intro fuel
  induction fuel with
  | zero => intro n d h; simp [natDigitsRevFuel] at h
  | succ f ih =>
    intro n d h
    unfold natDigitsRevFuel at h
    split at h
    · simp at h
    · rcases List.mem_cons.mp h with rfl | hmem
      · exact Nat.mod_lt _ (by norm_num)
      · exact ih _ _ hmem

lemma digitChar_isDigit {d : ℕ} (h : d < 10) : (digitChar d).isDigit = true := by
  interval_cases d <;> decide

lemma charsOfNat_all_digits (n : ℕ) : ∀ c ∈ charsOfNat n, c.isDigit = true := by
  unfold charsOfNat
  split
  · intro c hc
    rw [List.mem_singleton.mp hc]
    decide
  · intro c hc
    rw [List.mem_map] at hc
    obtain ⟨d, hd, rfl⟩ := hc
    exact digitChar_isDigit
      (natDigitsRevFuel_lt_ten n n d (List.mem_reverse.mp hd))

lemma charsOfNat_ne_nil (n : ℕ) : charsOfNat n ≠ [] := by
  unfold charsOfNat
  split
  · simp
  · next h =>
    cases n with
    | zero => exact absurd rfl h
    | succ m =>
      unfold natDigitsRev natDigitsRevFuel
      rw [if_neg h]
      simp

lemma takeWhile_digits_dot (A B : List Char) (hA : ∀ c ∈ A, c.isDigit = true) :
    (A ++ '.' :: B).takeWhile Char.isDigit = A ∧
      (A ++ '.' :: B).dropWhile Char.isDigit = '.' :: B := by
  induction A with
  | nil =>
    have hdot : ('.' : Char).isDigit = false := by decide
    constructor
    · rw [List.nil_append, List.takeWhile_cons, hdot]
      simp
    · rw [List.nil_append, List.dropWhile_cons, hdot]
      simp
  | cons c cs ih =>
    have hc : c.isDigit = true := hA c (by simp)
    obtain ⟨ih1, ih2⟩ := ih fun x hx => hA x (by simp [hx])
    constructor
    · rw [List.cons_append, List.takeWhile_cons, hc]
      simp [ih1]
    · rw [List.cons_append, List.dropWhile_cons, hc]
      simp [ih2]

lemma pyFloatParse_digits_dot (A B : List Char) (hA : ∀ c ∈ A, c.isDigit = true)
    (hAne : A ≠ []) (hB : ∀ c ∈ B, c.isDigit = true) :
    pyFloatParse (String.mk (A ++ '.' :: B)) =
      some (1 * ((digitsToNat A : ℚ) + (digitsToNat B : ℚ) / ((10:ℚ) ^ B.length))) := by
  obtain ⟨a, as, rfl⟩ := List.exists_cons_of_ne_nil hAne
  have ha : a.isDigit = true := hA a (by simp)
  have ham : a ≠ '-' := by rintro rfl; simp at ha
  have hap : a ≠ '+' := by rintro rfl; simp at ha
  have hsign : pySignSplit ((a :: as) ++ '.' :: B) = (1, (a :: as) ++ '.' :: B) := by
    show pySignSplit (a :: (as ++ '.' :: B)) = (1, a :: (as ++ '.' :: B))
    unfold pySignSplit
    split
    · next heq => rw [List.cons.injEq] at heq; exact absurd heq.1 ham
    · next heq => rw [List.cons.injEq] at heq; exact absurd heq.1 hap
    · rfl
  have hdata : (String.mk ((a :: as) ++ '.' :: B)).data = (a :: as) ++ '.' :: B := rfl
  unfold pyFloatParse
  rw [hdata, hsign]
  dsimp only
  rw [(takeWhile_digits_dot (a :: as) B hA).1, (takeWhile_digits_dot (a :: as) B hA).2]
  show (if (B.all Char.isDigit && !((a :: as).isEmpty && B.isEmpty)) = true then
      some ((1:ℚ) * ((digitsToNat (a :: as) : ℚ) + (digitsToNat B : ℚ) / ((10:ℚ) ^ B.length)))
    else none) =
    some (1 * ((digitsToNat (a :: as) : ℚ) + (digitsToNat B : ℚ) / ((10:ℚ) ^ B.length)))
  rw [if_pos]
  rw [Bool.and_eq_true]
  constructor
  · rw [List.all_eq_true]
    exact hB
  · simp

lemma padded_frac_digits (k m : ℕ) :
    ∀ c ∈ List.replicate k '0' ++ charsOfNat m, c.isDigit = true := by
  intro c hc
  rcases List.mem_append.mp hc with h | h
  · rw [List.eq_of_mem_replicate h]
    decide
  · exact charsOfNat_all_digits m c h

lemma pyFloatParse_neg_digits_dot (A B : List Char) (hA : ∀ c ∈ A, c.isDigit = true)
    (hAne : A ≠ []) (hB : ∀ c ∈ B, c.isDigit = true) :
    pyFloatParse (String.mk ('-' :: (A ++ '.' :: B))) =
      some ((-1) * ((digitsToNat A : ℚ) + (digitsToNat B : ℚ) / ((10:ℚ) ^ B.length))) := by
  obtain ⟨a, as, rfl⟩ := List.exists_cons_of_ne_nil hAne
  have hsign : pySignSplit ('-' :: ((a :: as) ++ '.' :: B)) = (-1, (a :: as) ++ '.' :: B) := rfl
  have hdata : (String.mk ('-' :: ((a :: as) ++ '.' :: B))).data =
      '-' :: ((a :: as) ++ '.' :: B) := rfl
  unfold pyFloatParse
  rw [hdata, hsign]
  rw [(takeWhile_digits_dot (a :: as) B hA).1, (takeWhile_digits_dot (a :: as) B hA).2]
  show (if (B.all Char.isDigit && !((a :: as).isEmpty && B.isEmpty)) = true then
      some ((-1:ℚ) * ((digitsToNat (a :: as) : ℚ) + (digitsToNat B : ℚ) / ((10:ℚ) ^ B.length)))
    else none) =
    some ((-1) * ((digitsToNat (a :: as) : ℚ) + (digitsToNat B : ℚ) / ((10:ℚ) ^ B.length)))
  rw [if_pos]
  rw [Bool.and_eq_true]
  constructor
  · rw [List.all_eq_true]
    exact hB
  · simp

lemma pyFloatParse_format_isSome (z : Int) :
    (pyFloatParse (format_sol_amount z)).isSome = true := by
  unfold format_sol_amount
  by_cases hz : z < 0
  · rw [if_pos hz]
    rw [show (['-'] ++ charsOfNat (z.natAbs / 1000000000) ++ '.' ::
        (List.replicate (9 - (charsOfNat (z.natAbs % 1000000000)).length) '0' ++
          charsOfNat (z.natAbs % 1000000000))) =
        '-' :: (charsOfNat (z.natAbs / 1000000000) ++ '.' ::
          (List.replicate (9 - (charsOfNat (z.natAbs % 1000000000)).length) '0' ++
            charsOfNat (z.natAbs % 1000000000))) from rfl]
    rw [pyFloatParse_neg_digits_dot _ _ (charsOfNat_all_digits _)
      (charsOfNat_ne_nil _) (padded_frac_digits _ _)]
    rfl
  · rw [if_neg hz]
    rw [show (([] : List Char) ++ charsOfNat (z.natAbs / 1000000000) ++ '.' ::
        (List.replicate (9 - (charsOfNat (z.natAbs % 1000000000)).length) '0' ++
          charsOfNat (z.natAbs % 1000000000))) =
        charsOfNat (z.natAbs / 1000000000) ++ '.' ::
          (List.replicate (9 - (charsOfNat (z.natAbs % 1000000000)).length) '0' ++
            charsOfNat (z.natAbs % 1000000000)) from rfl]
    rw [pyFloatParse_digits_dot _ _ (charsOfNat_all_digits _)
      (charsOfNat_ne_nil _) (padded_frac_digits _ _)]
    rfl

lemma pyFloatParse_zero : pyFloatParse "0" = some (1 * ((digitsToNat ['0'] : ℚ))) := rfl

lemma calculate_amount_cases (tx : TxData) (wa : String) :
    (calculate_balance_change tx wa).1 = "0" ∨
      ∃ z : Int, (calculate_balance_change tx wa).1 = format_sol_amount z := by
  unfold calculate_balance_change
  split
  · left
    rfl
  · next i heq =>
    split
    · right
      dsimp only
      refine ⟨tx.postBalances.getD i 0 - tx.preBalances.getD i 0, ?_⟩
      repeat' split
      all_goals rfl
    · left
      rfl

lemma pyFloatParse_amount_isSome (tx : TxData) (wa : String) :
    (pyFloatParse ((calculate_balance_change tx wa).1)).isSome = true := by
  rcases calculate_amount_cases tx wa with h | ⟨z, hz⟩
  · rw [h, pyFloatParse_zero]
    rfl
  · rw [hz]
    exact pyFloatParse_format_isSome z

/-- C10 counterexample: there is NO transaction whose classified amount
string fails to parse as a float — the classifier only ever emits `"0"` or
`format_sol_amount` output (sign, digits, '.', nine digits), all of which
Python's `float()` accepts — so the claim's premise is unsatisfiable and
no notification is ever dispatched with the dust comparison skipped. -/
theorem c10_no_unparsable_amount :
    ¬∃ (tx : TxData) (wa : String),
        pyFloatParse ((calculate_balance_change tx wa).1) = none := by
  rintro ⟨tx, wa, h⟩
  have hs := pyFloatParse_amount_isSome tx wa
  rw [h] at hs
  simp at hs

/-- C10 amended: the per-signature processor does contain a fallback that
would skip the dust comparison when `float(amount)` fails — but every
classified amount string parses, so the fallback is dead code: every
dispatched notification carries an amount that parsed and was found at or
above the minimum notification threshold. -/
theorem c10_amount_always_compared :
    (∀ (tx : TxData) (wa : String),
        (pyFloatParse ((calculate_balance_change tx wa).1)).isSome = true) ∧
      (∀ (obs : Bool) (wallets : List WalletRow) (tx : TxData) (wa sig : String)
          (l : Ledger),
        (processSingleTransaction obs wallets (some tx) wa sig l).2 = true →
        ∃ q, pyFloatParse ((calculate_balance_change tx wa).1) = some q ∧
          MIN_NOTIFICATION_AMOUNT ≤ |q|) := by
  refine ⟨pyFloatParse_amount_isSome, ?_⟩
  intro obs wallets tx wa sig l h
  obtain ⟨q, hq⟩ := Option.isSome_iff_exists.mp (pyFloatParse_amount_isSome tx wa)
  refine ⟨q, hq, ?_⟩
  by_contra hlt
  push_neg at hlt
  cases obs with
  | true => simp [processSingleTransaction] at h
  | false =>
    by_cases hw : wallets = []
    · simp [processSingleTransaction, hw] at h
    · simp only [processSingleTransaction, Bool.false_eq_true, if_false, hw,
        if_neg, ite_false] at h
      rw [hq] at h
      dsimp only at h
      rw [if_pos hlt] at h
      simp at h

/-- Witness for C10 amended at a concrete notified transaction: a 1 SOL
receive (delta 10⁹ lamports) on a fresh ledger notifies, and the theorem
yields its parsed amount at or above the threshold. -/
theorem c10_amount_always_compared_witness :
    ∃ q, pyFloatParse ((calculate_balance_change
        { preBalances := [0], postBalances := [1000000000],
          preTokenBalances := [], postTokenBalances := [],
          accountKeys := ["W"], instructions := [], blockTime := none } "W").1) =
      some q ∧ MIN_NOTIFICATION_AMOUNT ≤ |q| := by
  refine c10_amount_always_compared.2 false [⟨7, "W", true, none, none⟩]
    { preBalances := [0], postBalances := [1000000000],
      preTokenBalances := [], postTokenBalances := [],
      accountKeys := ["W"], instructions := [], blockTime := none }
    "W" "sigBig" [] ?_
  have hge : ¬(|(1:ℚ) * ((((1:ℕ)):ℚ) + (((0:ℕ)):ℚ) / ((10:ℚ) ^ (9:ℕ)))| <
      MIN_NOTIFICATION_AMOUNT) := by
    rw [abs_of_pos (by norm_num)]
    norm_num [MIN_NOTIFICATION_AMOUNT]
  simp only [processSingleTransaction, Bool.false_eq_true, if_false, reduceCtorEq,
    ite_false]
  rw [show pyFloatParse ((calculate_balance_change
      { preBalances := [0], postBalances := [1000000000],
        preTokenBalances := [], postTokenBalances := [],
        accountKeys := ["W"], instructions := [], blockTime := none } "W").1) =
    some ((1:ℚ) * ((((1:ℕ)):ℚ) + (((0:ℕ)):ℚ) / ((10:ℚ) ^ (9:ℕ)))) from rfl]
  dsimp only
  rw [if_neg hge]
  rfl

/-!
## Notification router (`SolanaWalletBot.send_transaction_notification`)

The routing decision (src/main.py lines 2307-2436) depends only on which
subscribers watch the account relative to `ADMIN_CHAT_ID`, and on whether
the broadcast channel (`MONITORING_CHANNEL`, truthy = configured and
nonzero) is set.  The embedding returns the ordered list of outbound
deliveries; message-body construction and per-send exception logging do
not affect the destination set.
-/

/-- `ADMIN_CHAT_ID = 5053683608` (line 76). -/
def ADMIN_CHAT_ID : Int := 5053683608

/-- The tag appended to the admin DM. -/
inductive AdminTag where
  | alsoWatchedByUsers
  | onlyYours
deriving DecidableEq, Repr

/-- One outbound delivery. -/
inductive Delivery where
  | toChannel (chatId : Int)
  | toAdmin (tag : AdminTag)
deriving DecidableEq, Repr

/-- The channel send (`if MONITORING_CHANNEL:` guard, lines 2377/2417). -/
def channelSend : Option Int → List Delivery
  | none => []
  | some c => if c = 0 then [] else [.toChannel c]

/-- `send_transaction_notification` (lines 2307-2436) as its delivery
list: early return when nobody watches the account (line 2316);
`admin_monitoring` / `regular_users_monitoring` computed with `any`
(lines 2323/2326); case 1 sends to the channel then the admin DM tagged
"also watched by users", case 2 to the admin DM only tagged "only yours",
case 3 to the channel only. -/
def send_transaction_notification (monitoringChannel : Option Int)
    (subscriberIds : List Int) : List Delivery :=
  if subscriberIds = [] then []
  else if (subscriberIds.any fun u => u == ADMIN_CHAT_ID) &&
      (subscriberIds.any fun u => !(u == ADMIN_CHAT_ID)) then
    channelSend monitoringChannel ++ [.toAdmin .alsoWatchedByUsers]
  else if (subscriberIds.any fun u => u == ADMIN_CHAT_ID) &&
      !(subscriberIds.any fun u => !(u == ADMIN_CHAT_ID)) then
    [.toAdmin .onlyYours]
  else if !(subscriberIds.any fun u => u == ADMIN_CHAT_ID) &&
      (subscriberIds.any fun u => !(u == ADMIN_CHAT_ID)) then
    channelSend monitoringChannel
  else []

/-- C8: with the broadcast channel configured and the account watched,
each routing-table row yields exactly its destinations, each exactly once:
admin + non-admin → one channel message and one admin DM tagged "also
watched by users"; admin only → one admin DM tagged "only yours"; no
admin → one channel message only. -/
theorem c8_routing_table (c : Int) (subs : List Int) (hc : c ≠ 0) (hne : subs ≠ []) :
    ((ADMIN_CHAT_ID ∈ subs ∧ ∃ u ∈ subs, u ≠ ADMIN_CHAT_ID) →
      send_transaction_notification (some c) subs =
        [.toChannel c, .toAdmin .alsoWatchedByUsers]) ∧
    ((ADMIN_CHAT_ID ∈ subs ∧ ∀ u ∈ subs, u = ADMIN_CHAT_ID) →
      send_transaction_notification (some c) subs = [.toAdmin .onlyYours]) ∧
    (ADMIN_CHAT_ID ∉ subs →
      send_transaction_notification (some c) subs = [.toChannel c]) := by
  have hadm_iff : ((subs.any fun u => u == ADMIN_CHAT_ID) = true) ↔ ADMIN_CHAT_ID ∈ subs := by
    simp [List.any_eq_true]
  have hreg_iff : ((subs.any fun u => !(u == ADMIN_CHAT_ID)) = true) ↔
      ∃ u ∈ subs, u ≠ ADMIN_CHAT_ID := by
    simp [List.any_eq_true]
  have hchan : channelSend (some c) = [.toChannel c] := by
    show (if c = 0 then ([] : List Delivery) else [.toChannel c]) = [.toChannel c]
    rw [if_neg hc]
  refine ⟨?_, ?_, ?_⟩
  · rintro ⟨h1, h2⟩
    unfold send_transaction_notification
    rw [if_neg hne,
      if_pos (by rw [Bool.and_eq_true]; exact ⟨hadm_iff.mpr h1, hreg_iff.mpr h2⟩), hchan]
    rfl
  · rintro ⟨h1, h2⟩
    have hregf : (subs.any fun u => !(u == ADMIN_CHAT_ID)) = false := by
      rw [Bool.eq_false_iff]
      intro hcontra
      obtain ⟨u, hu, hune⟩ := hreg_iff.mp hcontra
      exact hune (h2 u hu)
    unfold send_transaction_notification
    rw [if_neg hne,
      if_neg (by rw [Bool.and_eq_true]; rintro ⟨-, hr⟩; rw [hregf] at hr; cases hr),
      if_pos (by rw [Bool.and_eq_true]; exact ⟨hadm_iff.mpr h1, by rw [hregf]; rfl⟩)]
  · intro h1
    have hadmf : (subs.any fun u => u == ADMIN_CHAT_ID) = false := by
      rw [Bool.eq_false_iff]
      intro hcontra
      exact h1 (hadm_iff.mp hcontra)
    have hregt : (subs.any fun u => !(u == ADMIN_CHAT_ID)) = true := by
      obtain ⟨u, us, rfl⟩ := List.exists_cons_of_ne_nil hne
      refine hreg_iff.mpr ⟨u, by simp, ?_⟩
      intro heq
      exact h1 (heq ▸ (by simp : u ∈ u :: us))
    unfold send_transaction_notification
    rw [if_neg hne,
      if_neg (by rw [Bool.and_eq_true]; rintro ⟨ha, -⟩; rw [hadmf] at ha; cases ha),
      if_neg (by rw [Bool.and_eq_true]; rintro ⟨ha, -⟩; rw [hadmf] at ha; cases ha),
      if_pos (by rw [Bool.and_eq_true]; exact ⟨by rw [hadmf]; rfl, hregt⟩), hchan]

/-- Witness for C8: admin (5053683608) and user 42 both watch the
account, channel 777 configured — one channel message plus one tagged
admin DM. -/
theorem c8_routing_table_witness :
    send_transaction_notification (some 777) [ADMIN_CHAT_ID, 42] =
      [.toChannel 777, .toAdmin .alsoWatchedByUsers] :=
  (c8_routing_table 777 [ADMIN_CHAT_ID, 42] (by norm_num) (by simp)).1
    ⟨by simp, 42, by simp, by norm_num [ADMIN_CHAT_ID]⟩
